import Mathlib

/-!
Verification development for the Kaizen Effectiveness Analyzer
(`kaizen-effectiveness-analyzer.py`).

The analyzer reads two JSON documents (an optimization state and a metrics
log), computes trend statistics by least-squares regression, a convergence
estimate by an exponential-decay fit, return-on-investment figures, and
per-pattern effectiveness statistics, and renders a text report.

Embedding conventions:
* Python floats are idealized as exact rationals (`ℚ`); `np.log`, `np.exp`
  and `np.sqrt` are idealized as `Real.log`, `Real.exp` and `Real.sqrt`.
* JSON dicts with optional keys become structures of `Option` fields; the
  Python `dict.get(key, default)` becomes `Option.getD`.
* `np.polyfit(x, y, 1)` (degree-1 least squares) is embedded by the exact
  normal-equation solution (`fitSlope`, `fitIntercept`); the development
  proves below that this pair is the minimizer of the sum of squared errors,
  which is the defining property of the degree-1 least-squares fit.
* `np.std` is the population standard deviation, the square root of
  `popVariance`.  The `PatternStat` record stores the square of the
  standard deviation (`sq_std_improvement : ℚ`) so that the record stays
  computable; the source's `std_improvement` field is recovered as
  `Real.sqrt sq_std_improvement` and its `reliability` field as
  `reliabilityR` below.
* Python's `sorted(key=..., reverse=True)` is a stable descending sort;
  it is embedded as the stable insertion sort `sortByImpact` (the output
  of a stable sort is uniquely determined by the comparator, so any stable
  implementation is observationally identical).
* File reads become functions of `Option`-valued file contents: `none`
  models a missing file (Python's `FileNotFoundError` branch), `some d`
  models a file that parses to the dict `d`.
* `datetime.now()` is an effect; the wall-clock hour and the formatted
  timestamp are passed as explicit parameters.
-/

namespace Kaizen

/-- The dict loaded from `optimization_state.json`.  Each key may be absent;
Python reads every key through `dict.get` with a per-call-site default. -/
structure StateDict where
  iteration : Option ℤ
  total_improvement : Option ℚ
  successful_optimizations : Option ℤ
  failed_attempts : Option ℤ
deriving DecidableEq

/-- One entry of `metrics["optimizations_applied"]`; read through
`opt.get("pattern", "unknown")` and `opt.get("improvement", 0.0)`. -/
structure OptEntry where
  pattern : Option String
  improvement : Option ℚ
deriving DecidableEq

/-- The dict loaded from `kaizen_metrics.json`.  Entries of
`improvement_history` are dicts `{"improvement": float}` accessed by direct
indexing (`h["improvement"]`), so each entry is embedded as its improvement
value. -/
structure MetricsDict where
  improvement_history : List ℚ
  optimizations_applied : List OptEntry
deriving DecidableEq

/-- `load_state`'s default - the dict literal
`{"iteration": 0, "total_improvement": 0.0}`; the other two keys are absent. -/
def defaultState : StateDict := ⟨some 0, some 0, none, none⟩

/-- `load_state`: return the parsed file contents, or the default dict when
the file is missing (`FileNotFoundError`). -/
def load_state (file : Option StateDict) : StateDict := file.getD defaultState

/-- `load_metrics`: return the parsed file contents, or
`{"improvement_history": [], "optimizations_applied": []}` when the file is
missing. -/
def load_metrics (file : Option MetricsDict) : MetricsDict := file.getD ⟨[], []⟩

/-! ### Degree-1 least squares (`np.polyfit(x, y, 1)` with `x = arange n`) -/

/-- `Σ_{i<n} i` - the sum of the regressor values. -/
def Sx (K : Type) [Semiring K] (n : ℕ) : K := ∑ i ∈ Finset.range n, (i : K)

/-- `Σ_{i<n} i²`. -/
def Sxx (K : Type) [Semiring K] (n : ℕ) : K := ∑ i ∈ Finset.range n, (i : K) ^ 2

/-- `Σ_{i<n} y i`. -/
def Sy (K : Type) [Semiring K] (n : ℕ) (y : ℕ → K) : K := ∑ i ∈ Finset.range n, y i

/-- `Σ_{i<n} i * y i`. -/
def Sxy (K : Type) [Semiring K] (n : ℕ) (y : ℕ → K) : K :=
  ∑ i ∈ Finset.range n, (i : K) * y i

/-- The slope of the degree-1 least-squares fit of `y` against `0..n-1`
(the exact value `np.polyfit(np.arange n, y, 1)[0]` computes): the unique
solution of the normal equations when `2 ≤ n`. -/
def fitSlope (K : Type) [Field K] (n : ℕ) (y : ℕ → K) : K :=
  ((n : K) * Sxy K n y - Sx K n * Sy K n y) / ((n : K) * Sxx K n - Sx K n ^ 2)

/-- The intercept of the degree-1 least-squares fit (`np.polyfit(...)[1]`). -/
def fitIntercept (K : Type) [Field K] (n : ℕ) (y : ℕ → K) : K :=
  (Sy K n y - fitSlope K n y * Sx K n) / (n : K)

/-- The `i`-th element of a value list, as `np.array(values)[i]`. -/
def yOf (values : List ℚ) : ℕ → ℚ := fun i => values.getD i 0

/-- Slope of the least-squares line for a value list (`coeffs[0]`). -/
def slopeOf (values : List ℚ) : ℚ := fitSlope ℚ values.length (yOf values)

/-- Intercept of the least-squares line for a value list (`coeffs[1]`). -/
def interceptOf (values : List ℚ) : ℚ := fitIntercept ℚ values.length (yOf values)

/-- Sum of squared errors of the line `a*x + b` on the value list; at
`(slopeOf, interceptOf)` this is the code's `ss_res`. -/
def sse (values : List ℚ) (a b : ℚ) : ℚ :=
  ∑ i ∈ Finset.range values.length, (yOf values i - (a * i + b)) ^ 2

/-- The code's `ss_tot`: total sum of squares about the mean `np.mean(y)`. -/
def ssTot (values : List ℚ) : ℚ :=
  ∑ i ∈ Finset.range values.length,
    (yOf values i - Sy ℚ values.length (yOf values) / values.length) ^ 2

/-- Result dict of `analyze_trend`; `generate_report` also builds the bare
dict `{"trend": "no_data"}`, whose `slope`/`r_squared` keys are absent, so
those two fields are `Option`-valued. -/
structure TrendResult where
  slope : Option ℚ
  r_squared : Option ℚ
  trend : String
deriving DecidableEq

/-- The trend classification of `analyze_trend`
(`slope > 0.1` / `slope < -0.1` / otherwise). -/
def classify (slope : ℚ) : String :=
  if 1 / 10 < slope then ("improving")
  else if slope < -(1 / 10) then ("degrading")
  else ("stable")

/-- `analyze_trend`: linear regression of the values against their indices,
R² = 1 - ss_res/ss_tot (0 when ss_tot is not positive), and threshold
classification; fewer than 2 points short-circuit to `insufficient_data`. -/
def analyze_trend (values : List ℚ) : TrendResult :=
  if values.length < 2 then ⟨some 0, some 0, ("insufficient_data")⟩
  else
    ⟨some (slopeOf values),
     some (if 0 < ssTot values then
             1 - sse values (slopeOf values) (interceptOf values) / ssTot values
           else 0),
     classify (slopeOf values)⟩

/-! ### `predict_convergence` -/

/-- `np.min` of a value list (the code only evaluates it on lists of length
at least 3; the empty case is given a harmless default). -/
def minVal : List ℚ → ℚ
  | [] => 0
  | x :: xs => xs.foldl min x

/-- The log-transformed series `np.log(y - np.min(y) + 0.001)`. -/
noncomputable def logVals (improvements : List ℚ) : ℕ → ℝ :=
  fun i => Real.log ((yOf improvements i : ℝ) - (minVal improvements : ℝ) + 1 / 1000)

/-- Python `int()` on a real number: truncation toward zero. -/
noncomputable def truncR (x : ℝ) : ℤ := if 0 ≤ x then ⌊x⌋ else ⌈x⌉

open Classical in
/-- `predict_convergence`: on fewer than 3 points return `None`; otherwise
fit a line to the log-transformed values and, if the fitted rate `coeffs[0]`
is negative, return `max(0, int((log threshold - coeffs[1]) / coeffs[0]) - n)`;
otherwise return `None`.  The function is total: the `try/except` of the
source can only be reached through floating-point non-finiteness, which has
no counterpart in the exact model (the log argument is always positive, see
`C5` below). -/
noncomputable def predict_convergence (improvements : List ℚ) (threshold : ℚ) :
    Option ℤ :=
  if improvements.length < 3 then none
  else
    let n := improvements.length
    let a := fitSlope ℝ n (logVals improvements)
    let b := fitIntercept ℝ n (logVals improvements)
    if a < 0 then some (max 0 (truncR ((Real.log (threshold : ℝ) - b) / a) - n))
    else none

/-! ### `calculate_roi` -/

/-- Result dict of `calculate_roi`. -/
structure RoiResult where
  total_improvement : ℚ
  improvement_per_hour : ℚ
  improvement_per_iteration : ℚ
  efficiency_score : ℚ
  time_invested_hours : ℚ
deriving DecidableEq

/-- `calculate_roi`.  Note `state.get("iteration", 1)`: an absent
`iteration` key defaults to 1 here (unlike the missing-file default state,
which stores `iteration = 0`).  The `metrics` argument is passed by the
caller but unused, exactly as in the source. -/
def calculate_roi (state : StateDict) (metrics : MetricsDict) : RoiResult :=
  let iteration : ℤ := state.iteration.getD 1
  let total : ℚ := state.total_improvement.getD 0
  let timeSpent : ℚ := ((iteration * 5 : ℤ) : ℚ) / 60
  let expected : ℤ := iteration * 5
  { total_improvement := total
    improvement_per_hour := total / max timeSpent (1 / 10)
    improvement_per_iteration := total / ((max iteration 1 : ℤ) : ℚ)
    efficiency_score := min 100 (total / ((max expected 1 : ℤ) : ℚ) * 100)
    time_invested_hours := timeSpent }

/-! ### `identify_patterns` -/

/-- The per-pattern accumulator dict value
`{"count": ..., "total_improvement": ..., "improvements": [...]}`. -/
structure PatternAcc where
  count : ℕ
  total_improvement : ℚ
  improvements : List ℚ
deriving DecidableEq

/-- `opt.get("pattern", "unknown")`. -/
def getPattern (o : OptEntry) : String := o.pattern.getD ("unknown")

/-- `opt.get("improvement", 0.0)`. -/
def getImprovement (o : OptEntry) : ℚ := o.improvement.getD 0

/-- One update of the insertion-ordered dict `patterns`: if the key is
present, bump its entry in place; otherwise append a fresh entry at the end
(Python dicts preserve insertion order). -/
def insertOpt (acc : List (String × PatternAcc)) (p : String) (imp : ℚ) :
    List (String × PatternAcc) :=
  match acc with
  | [] => [(p, ⟨1, imp, [imp]⟩)]
  | (q, d) :: rest =>
      if q = p then
        (q, ⟨d.count + 1, d.total_improvement + imp, d.improvements ++ [imp]⟩) :: rest
      else (q, d) :: insertOpt rest p imp

/-- The accumulation loop over `metrics["optimizations_applied"]`. -/
def accumPatterns (opts : List OptEntry) : List (String × PatternAcc) :=
  opts.foldl (fun acc o => insertOpt acc (getPattern o) (getImprovement o)) []

/-- Population variance (the square of `np.std`, which uses `ddof=0`). -/
def popVariance (l : List ℚ) : ℚ :=
  (l.map (fun x => (x - l.sum / l.length) ^ 2)).sum / l.length

/-- One output record of `identify_patterns`.  `sq_std_improvement` stores
the square of the source's `std_improvement` float (see the header); the
`reliability` float of the source is `reliabilityR` below. -/
structure PatternStat where
  pattern : String
  count : ℕ
  avg_improvement : ℚ
  sq_std_improvement : ℚ
  total_impact : ℚ
deriving DecidableEq

/-- The source's `std_improvement` value:
`np.std(improvements) if len(improvements) > 1 else 0`. -/
noncomputable def stdR (s : PatternStat) : ℝ := Real.sqrt s.sq_std_improvement

/-- The source's `reliability` value:
`1.0 - (std_improvement / max(avg_improvement, 0.001))`. -/
noncomputable def reliabilityR (s : PatternStat) : ℝ :=
  1 - stdR s / max (s.avg_improvement : ℝ) (1 / 1000)

/-- Build the stats record for one accumulated group. -/
def mkStat (p : String) (d : PatternAcc) : PatternStat :=
  { pattern := p
    count := d.count
    avg_improvement := d.total_improvement / (d.count : ℚ)
    sq_std_improvement :=
      if 1 < d.improvements.length then popVariance d.improvements else 0
    total_impact := d.total_improvement }

/-- The unsorted `pattern_stats` list (groups in first-encounter order,
restricted to `count > 0` as in the source - the guard is always true but
is kept). -/
def preStats (metrics : MetricsDict) : List PatternStat :=
  ((accumPatterns metrics.optimizations_applied).filter
      (fun pd => 0 < pd.2.count)).map (fun pd => mkStat pd.1 pd.2)

/-- Insert into a list so that the element lands before the first element of
strictly smaller `total_impact` and after every earlier element of greater
or equal `total_impact`. -/
def insertByImpact (s : PatternStat) : List PatternStat → List PatternStat
  | [] => [s]
  | t :: ts =>
      if t.total_impact ≤ s.total_impact then s :: t :: ts
      else t :: insertByImpact s ts

/-- Stable descending sort by `total_impact` - the embedding of
`sorted(pattern_stats, key=lambda x: x["total_impact"], reverse=True)`
(Python's `sorted` is stable; a stable sort's output is determined by the
comparator, so this insertion sort is observationally the same). -/
def sortByImpact : List PatternStat → List PatternStat
  | [] => []
  | s :: rest => insertByImpact s (sortByImpact rest)

/-- `identify_patterns`. -/
def identify_patterns (metrics : MetricsDict) : List PatternStat :=
  sortByImpact (preStats metrics)

/-- The improvements recorded for pattern `p`, in input order - the
reference value the accumulator is proved against. -/
def improvementsFor (opts : List OptEntry) (p : String) : List ℚ :=
  (opts.filter (fun o => getPattern o == p)).map getImprovement

/-- First-encounter order of the (defaulted) pattern names of a list of
entries. -/
def firstOccur (l : List String) : List String :=
  l.foldl (fun ks p => if p ∈ ks then ks else ks ++ [p]) []

/-- Merge an accumulator entry with a further improvement list; `none`
stands for "key not yet present". -/
def combineAcc : Option PatternAcc → List ℚ → Option PatternAcc
  | none, [] => none
  | none, l => some ⟨l.length, l.sum, l⟩
  | some d, l => some ⟨d.count + l.length, d.total_improvement + l.sum,
                       d.improvements ++ l⟩

/-- Keys of the accumulator, in order. -/
def keysOf (acc : List (String × PatternAcc)) : List String := acc.map Prod.fst

/-- The worked example of the spec:
`[{"pattern":"A","improvement":10},{"pattern":"A","improvement":20},
  {"pattern":"B","improvement":5}]` as the applied-optimizations log. -/
def exampleMetrics : MetricsDict :=
  ⟨[], [⟨some ("A"), some 10⟩, ⟨some ("A"), some 20⟩, ⟨some ("B"), some 5⟩]⟩

/-! ### `generate_recommendations` -/

/-- The stop suggestion appended when the trend is degrading. -/
def stopLine : String :=
  "⚠️  Diminishing returns detected. Consider stopping after next iteration."

/-- Appended when the trend is stable. -/
def plateauLine : String :=
  "📊 Improvements plateauing. Try adjusting optimization parameters."

/-- Appended when the efficiency score is below 50. -/
def lowEfficiencyLine : String :=
  "🔧 Low efficiency detected. Review failed optimization attempts."

/-- Fixed first part of the best-pattern recommendation. -/
def patternLinePre : String := "✨ Most effective pattern: "

/-- Round half to even to an integer, the rounding of Python's float
formatting (`format(x, '.1f')`); exact on the rational idealization
(decimal ties of binary floats are an acknowledged approximation). -/
def roundHalfEven (q : ℚ) : ℤ :=
  if q - ⌊q⌋ < 1 / 2 then ⌊q⌋
  else if 1 / 2 < q - ⌊q⌋ then ⌊q⌋ + 1
  else if ⌊q⌋ % 2 = 0 then ⌊q⌋ else ⌊q⌋ + 1

/-- Left-pad a digit string with zeros to width `d`. -/
def padZeros (d : ℕ) (s : String) : String :=
  String.mk (List.replicate (d - s.length) ('0')) ++ s

/-- Python's fixed-point format `f"{q:.d f}"` on the rational idealization
(the sign of a rounded-to-zero negative value is dropped, where Python's
float formatting would print "-0.0"; no recommendation or report property
below depends on that corner). -/
def fmtFixed (d : ℕ) (q : ℚ) : String :=
  let z := roundHalfEven (q * ((10 : ℚ) ^ d))
  let a := z.natAbs
  let scale := 10 ^ d
  (if z < 0 then ("-") else ("")) ++ toString (a / scale) ++
    (if d = 0 then ("") else ("." ++ padZeros d (toString (a % scale))))

/-- The best-pattern recommendation
`f"✨ Most effective pattern: {p} (avg {a:.1f}% improvement)"`. -/
def patternLine (s : PatternStat) : String :=
  patternLinePre ++ (s.pattern ++ (" (avg " ++
    (fmtFixed 1 s.avg_improvement ++ ("% improvement)"))))

/-- Appended when the success rate is below 1/2. -/
def successRateLine : String :=
  "🎯 Success rate below 50%. Consider more conservative optimization targets."

/-- Appended when the wall-clock hour is between 6 and 8. -/
def morningLine : String :=
  "☀️  Morning hours - good time to review results and merge changes."

/-- `successful / max(successful + failed, 1)` with `dict.get(-, 0)` reads. -/
def successRate (state : StateDict) : ℚ :=
  ((state.successful_optimizations.getD 0 : ℤ) : ℚ) /
    ((max (state.successful_optimizations.getD 0 + state.failed_attempts.getD 0) 1 : ℤ) : ℚ)

/-- `generate_recommendations`: five independent rules, each appending zero
or one line, evaluated in fixed order.  The wall-clock hour read from
`datetime.now()` is an explicit parameter. -/
def generate_recommendations (state : StateDict) (metrics : MetricsDict)
    (trend : TrendResult) (hour : ℕ) : List String :=
  (if trend.trend = ("degrading") then [stopLine]
   else if trend.trend = ("stable") then [plateauLine] else [])
  ++ (if (calculate_roi state metrics).efficiency_score < 50 then [lowEfficiencyLine]
      else [])
  ++ (match identify_patterns metrics with
      | [] => []
      | best :: _ => [patternLine best])
  ++ (if successRate state < 1 / 2 then [successRateLine] else [])
  ++ (if 6 ≤ hour ∧ hour ≤ 8 then [morningLine] else [])

/-! ### `generate_report` -/

/-- The values `generate_report` computes before rendering. -/
structure ReportData where
  state : StateDict
  metrics : MetricsDict
  improvements : List ℚ
  trend : TrendResult
  roi : RoiResult
  recommendations : List String
  convergence : Option ℤ
  patterns : List PatternStat
  recent : List ℚ

/-- The computation part of `generate_report`: load both files, extract the
improvement history, and compute trend (the bare `{"trend": "no_data"}`
dict on an empty history), ROI, recommendations, the convergence estimate
(skipped on an empty history) and the pattern stats; `recent` is
`improvements[-5:] if improvements else []`. -/
noncomputable def collect_report (stateFile : Option StateDict)
    (metricsFile : Option MetricsDict) (hour : ℕ) : ReportData :=
  let state := load_state stateFile
  let metrics := load_metrics metricsFile
  let improvements := metrics.improvement_history
  let trend := if improvements = [] then ⟨none, none, ("no_data")⟩
               else analyze_trend improvements
  { state := state
    metrics := metrics
    improvements := improvements
    trend := trend
    roi := calculate_roi state metrics
    recommendations := generate_recommendations state metrics trend hour
    convergence := if improvements = [] then none
                   else predict_convergence improvements (1 / 20)
    patterns := identify_patterns metrics
    recent := if improvements = [] then []
              else improvements.drop (improvements.length - 5) }

/-- Python truncation of a rational (`int(imp)`). -/
def truncQ (q : ℚ) : ℤ := if 0 ≤ q then ⌊q⌋ else ⌈q⌉

/-- The bar of a recent-improvements line:
`"█" * int(imp) + "░" * (20 - int(imp))` (Python string repetition clamps
negative counts to the empty string). -/
def barFor (imp : ℚ) : String :=
  String.mk (List.replicate (truncQ imp).toNat ('█')) ++
    String.mk (List.replicate ((20 - truncQ imp).toNat) ('░'))

/-- One rendered line of the recent-improvements section. -/
def recentLine (total recentLen i : ℕ) (imp : ℚ) : String :=
  String.join ["├─ Iteration ", toString (total - recentLen + i + 1), ": [",
    barFor imp, "] ", fmtFixed 1 imp, "%", "\n"]

/-- The rendered recent-improvements section: one line per entry of
`recent` (so an empty history renders zero entries). -/
def renderRecent (total : ℕ) (recent : List ℚ) : String :=
  String.join ((recent.enum.map
    (fun p => recentLine total recent.length p.1 p.2)))

/-- The convergence line's value:
`f"{k} iterations" if iterations_to_convergence else "Unknown"` - note
Python truthiness maps both `None` and `0` to `"Unknown"`. -/
def renderConvergence : Option ℤ → String
  | none => "Unknown"
  | some k => if k = 0 then ("Unknown") else toString k ++ (" iterations")

/-- One line of the top-5 pattern section. -/
def renderPatternLine (i : ℕ) (s : PatternStat) : String :=
  String.join ["├─ ", toString (i + 1), ". ", s.pattern, ": ",
    fmtFixed 1 s.avg_improvement, "% avg (", toString s.count,
    " applications)", "\n"]

/-- A horizontal run of `n` copies of the box-border character `═` (the
source writes these runs as literals; they are built by repetition here,
with the same string value). -/
def borderRun (n : ℕ) : String := String.mk (List.replicate n ('═'))

/-- The fixed banner of the report, around the formatted timestamp. -/
def reportHeader (now : String) : String :=
  String.join [
    "\n╔", borderRun 66, "╗\n",
    "║           KAIZEN EFFECTIVENESS ANALYSIS REPORT                   ║\n",
    "║                    ", now,
    "                       ║\n╚", borderRun 66, "╝\n"]

/-- The string-assembly part of `generate_report`. -/
def render_report (now : String) (d : ReportData) : String :=
  String.join [reportHeader now,
    "\n📊 PERFORMANCE METRICS\n",
    "├─ Total Improvement: ", fmtFixed 2 d.roi.total_improvement, "%\n",
    "├─ Improvement/Hour: ", fmtFixed 2 d.roi.improvement_per_hour, "%\n",
    "├─ Improvement/Iteration: ", fmtFixed 2 d.roi.improvement_per_iteration, "%\n",
    "├─ Efficiency Score: ", fmtFixed 1 d.roi.efficiency_score, "/100\n",
    "└─ Time Invested: ", fmtFixed 1 d.roi.time_invested_hours, " hours\n",
    "\n📈 TREND ANALYSIS\n",
    "├─ Current Trend: ", d.trend.trend.toUpper, "\n",
    "├─ Trend Slope: ", fmtFixed 3 (d.trend.slope.getD 0), "\n",
    "├─ R-squared: ", fmtFixed 3 (d.trend.r_squared.getD 0), "\n",
    "└─ Convergence ETA: ", renderConvergence d.convergence, "\n",
    "\n🎯 OPTIMIZATION PATTERNS\n",
    String.join ((d.patterns.take 5).enum.map (fun p => renderPatternLine p.1 p.2)),
    "\n💡 RECOMMENDATIONS\n",
    String.join (d.recommendations.map (fun r => String.join ["├─ ", r, "\n"])),
    "\n📊 RECENT IMPROVEMENTS\n",
    renderRecent d.improvements.length d.recent,
    "\n", borderRun 68, "\n"]

/-- `generate_report`: load, compute, render.  A total function - no input
makes it raise. -/
noncomputable def generate_report (stateFile : Option StateDict)
    (metricsFile : Option MetricsDict) (hour : ℕ) (now : String) : String :=
  render_report now (collect_report stateFile metricsFile hour)

/-! ## Supporting lemmas -/

theorem foldl_min_le_init (xs : List ℚ) : ∀ x : ℚ, xs.foldl min x ≤ x := by
  induction xs with
  | nil => intro x; simp
  | cons a as ih =>
      intro x
      calc as.foldl min (min x a) ≤ min x a := ih (min x a)
        _ ≤ x := min_le_left x a

theorem foldl_min_le_mem {a : ℚ} {xs : List ℚ} (h : a ∈ xs) :
    ∀ x : ℚ, xs.foldl min x ≤ a := by
  induction xs with
  | nil => cases h
  | cons b bs ih =>
      intro x
      rcases List.mem_cons.1 h with rfl | hb
      · calc bs.foldl min (min x a) ≤ min x a := foldl_min_le_init bs (min x a)
          _ ≤ a := min_le_right x a
      · exact ih hb (min x b)

/-- `np.min` really is a lower bound of the array. -/
theorem minVal_le {l : List ℚ} {v : ℚ} (h : v ∈ l) : minVal l ≤ v := by
  cases l with
  | nil => cases h
  | cons x xs =>
      rcases List.mem_cons.1 h with rfl | hv
      · exact foldl_min_le_init xs v
      · exact foldl_min_le_mem hv x

theorem Sx_eq (n : ℕ) : Sx ℚ n = n * (n - 1) / 2 := by
  induction n with
  | zero => simp [Sx]
  | succ k ih =>
      rw [Sx, Finset.sum_range_succ]
      rw [Sx] at ih
      rw [ih]
      push_cast
      ring

theorem Sxx_eq (n : ℕ) : Sxx ℚ n = n * (n - 1) * (2 * n - 1) / 6 := by
  induction n with
  | zero => simp [Sxx]
  | succ k ih =>
      rw [Sxx, Finset.sum_range_succ]
      rw [Sxx] at ih
      rw [ih]
      push_cast
      ring

theorem denom_eq (n : ℕ) :
    (n : ℚ) * Sxx ℚ n - Sx ℚ n ^ 2 = n ^ 2 * (n - 1) * (n + 1) / 12 := by
  rw [Sxx_eq, Sx_eq]
  ring

/-- For at least two sample points the normal-equation denominator is
positive, so the least-squares problem has a unique solution. -/
theorem denom_pos {n : ℕ} (h : 2 ≤ n) :
    0 < (n : ℚ) * Sxx ℚ n - Sx ℚ n ^ 2 := by
  rw [denom_eq]
  have h2 : (2 : ℚ) ≤ (n : ℚ) := by exact_mod_cast h
  have h0 : (0 : ℚ) < n := by linarith
  have ha : (0 : ℚ) < (n : ℚ) ^ 2 := by positivity
  have hb : (0 : ℚ) < (n : ℚ) - 1 := by linarith
  have hc : (0 : ℚ) < (n : ℚ) + 1 := by linarith
  have hd := mul_pos (mul_pos ha hb) hc
  linarith

/-- First normal equation: the residuals of the fitted line sum to zero. -/
theorem sum_resid {n : ℕ} (y : ℕ → ℚ) (h : 2 ≤ n) :
    ∑ i ∈ Finset.range n, (y i - (fitSlope ℚ n y * i + fitIntercept ℚ n y)) = 0 := by
  have hn : (n : ℚ) ≠ 0 := by
    have : (0 : ℚ) < n := by exact_mod_cast (by omega : 0 < n)
    exact ne_of_gt this
  have expand : ∑ i ∈ Finset.range n, (y i - (fitSlope ℚ n y * i + fitIntercept ℚ n y))
      = Sy ℚ n y - (fitSlope ℚ n y * Sx ℚ n + n * fitIntercept ℚ n y) := by
    rw [Finset.sum_sub_distrib, Finset.sum_add_distrib, ← Finset.mul_sum,
      Finset.sum_const, Finset.card_range]
    simp only [Sy, Sx, nsmul_eq_mul]
  rw [expand, fitIntercept]
  field_simp

/-- Second normal equation: the index-weighted residuals sum to zero. -/
theorem sum_x_resid {n : ℕ} (y : ℕ → ℚ) (h : 2 ≤ n) :
    ∑ i ∈ Finset.range n, (i : ℚ) * (y i - (fitSlope ℚ n y * i + fitIntercept ℚ n y)) = 0 := by
  have hn : (n : ℚ) ≠ 0 := by
    have : (0 : ℚ) < n := by exact_mod_cast (by omega : 0 < n)
    exact ne_of_gt this
  have hD : (n : ℚ) * Sxx ℚ n - Sx ℚ n ^ 2 ≠ 0 := ne_of_gt (denom_pos h)
  have expand : ∑ i ∈ Finset.range n, (i : ℚ) * (y i - (fitSlope ℚ n y * i + fitIntercept ℚ n y))
      = Sxy ℚ n y - fitSlope ℚ n y * Sxx ℚ n - fitIntercept ℚ n y * Sx ℚ n := by
    have e1 : ∀ i ∈ Finset.range n, (i : ℚ) * (y i - (fitSlope ℚ n y * i + fitIntercept ℚ n y))
        = (i : ℚ) * y i - fitSlope ℚ n y * (i : ℚ) ^ 2 - fitIntercept ℚ n y * (i : ℚ) :=
      fun i _ => by ring
    rw [Finset.sum_congr rfl e1, Finset.sum_sub_distrib, Finset.sum_sub_distrib,
      ← Finset.mul_sum, ← Finset.mul_sum]
    simp only [Sxy, Sxx, Sx]
  rw [expand, fitIntercept, fitSlope]
  field_simp
  ring

/-- `(slopeOf, interceptOf)` really is the degree-1 least-squares fit: it
minimizes the sum of squared errors among all lines. -/
theorem sse_optimal (values : List ℚ) (h : 2 ≤ values.length) (a b : ℚ) :
    sse values (slopeOf values) (interceptOf values) ≤ sse values a b := by
  have key : sse values a b
      = sse values (slopeOf values) (interceptOf values)
        + ∑ i ∈ Finset.range values.length,
            ((slopeOf values - a) * i + (interceptOf values - b)) ^ 2 := by
    have e1 : ∀ i ∈ Finset.range values.length,
        (yOf values i - (a * i + b)) ^ 2
        = (yOf values i - (slopeOf values * i + interceptOf values)) ^ 2
          + (2 * (slopeOf values - a)) *
              ((i : ℚ) * (yOf values i - (slopeOf values * i + interceptOf values)))
          + ((2 * (interceptOf values - b)) *
               (yOf values i - (slopeOf values * i + interceptOf values))
             + ((slopeOf values - a) * i + (interceptOf values - b)) ^ 2) :=
      fun i _ => by ring
    rw [sse, Finset.sum_congr rfl e1]
    simp only [Finset.sum_add_distrib]
    rw [← Finset.mul_sum, ← Finset.mul_sum]
    rw [show (∑ i ∈ Finset.range values.length,
        (i : ℚ) * (yOf values i - (slopeOf values * i + interceptOf values))) = 0 from
      sum_x_resid (yOf values) h]
    rw [show (∑ i ∈ Finset.range values.length,
        (yOf values i - (slopeOf values * i + interceptOf values))) = 0 from
      sum_resid (yOf values) h]
    rw [sse]
    ring
  rw [key]
  exact le_add_of_nonneg_right (Finset.sum_nonneg (fun i _ => sq_nonneg _))

/-- The best-pattern recommendation can never coincide with the stop
suggestion: the two lines differ already at their first character. -/
theorem patternLine_ne_stopLine (s : PatternStat) : patternLine s ≠ stopLine := by
  intro h
  have h2 := congrArg (fun t : String => t.data.head?) h
  simp only [patternLine, String.data_append] at h2
  rw [show patternLinePre.data = '✨' :: patternLinePre.data.tail from rfl] at h2
  simp only [List.cons_append, List.head?_cons] at h2
  exact absurd h2 (by decide)

theorem notmem_stop_ite {P : Prop} {inst : Decidable P} {x : String}
    (hx : x ≠ stopLine) : stopLine ∉ (if P then [x] else ([] : List String)) := by
  intro hm
  split at hm
  · rw [List.mem_singleton] at hm
    exact hx hm.symm
  · cases hm

/-! ### The accumulator dict of `identify_patterns` -/

theorem lookup_insertOpt (acc : List (String × PatternAcc)) (p : String) (imp : ℚ)
    (q : String) :
    List.lookup q (insertOpt acc p imp) =
      if q = p then
        some (match List.lookup p acc with
          | some d => ⟨d.count + 1, d.total_improvement + imp, d.improvements ++ [imp]⟩
          | none => ⟨1, imp, [imp]⟩)
      else List.lookup q acc := by
  induction acc with
  | nil =>
      by_cases hq : q = p
      · subst hq
        simp [insertOpt, List.lookup]
      · have hb : (q == p) = false := beq_eq_false_iff_ne.2 hq
        simp [insertOpt, List.lookup, hb, hq]
  | cons hd tl ih =>
      obtain ⟨r, d⟩ := hd
      by_cases hrp : r = p
      · subst hrp
        by_cases hq : q = r
        · subst hq
          simp [insertOpt, List.lookup]
        · have hb : (q == r) = false := beq_eq_false_iff_ne.2 hq
          simp [insertOpt, List.lookup, hb, hq]
      · by_cases hq : q = r
        · subst hq
          have hqp : ¬ q = p := hrp
          simp [insertOpt, List.lookup, hrp, hqp]
        · have hb : (q == r) = false := beq_eq_false_iff_ne.2 hq
          have hpr : (p == r) = false := beq_eq_false_iff_ne.2 (fun hh => hrp hh.symm)
          simp [insertOpt, List.lookup, hrp, hb, hpr, ih]

theorem keysOf_insertOpt (acc : List (String × PatternAcc)) (p : String) (imp : ℚ) :
    keysOf (insertOpt acc p imp) =
      if p ∈ keysOf acc then keysOf acc else keysOf acc ++ [p] := by
  induction acc with
  | nil => simp [insertOpt, keysOf]
  | cons hd tl ih =>
      obtain ⟨r, d⟩ := hd
      by_cases hrp : r = p
      · subst hrp
        simp [insertOpt, keysOf]
      · simp [insertOpt, keysOf, hrp, Ne.symm hrp] at ih ⊢
        rw [ih]
        split
        · rename_i hmem
          rw [if_pos (List.mem_cons_of_mem r hmem)]
        · rename_i hmem
          rw [if_neg (by simp [hrp, Ne.symm hrp, hmem])]



theorem nodup_keysOf_insertOpt {acc : List (String × PatternAcc)} (p : String) (imp : ℚ)
    (h : (keysOf acc).Nodup) : (keysOf (insertOpt acc p imp)).Nodup := by
  rw [keysOf_insertOpt]
  split
  · exact h
  · rename_i hp
    simp [List.nodup_append, h, hp]

theorem accum_foldl (opts : List OptEntry) :
    ∀ acc : List (String × PatternAcc), (keysOf acc).Nodup →
      (keysOf (opts.foldl (fun a o => insertOpt a (getPattern o) (getImprovement o)) acc)).Nodup ∧
      ∀ q, List.lookup q
          (opts.foldl (fun a o => insertOpt a (getPattern o) (getImprovement o)) acc)
        = combineAcc (List.lookup q acc) (improvementsFor opts q) := by
  induction opts with
  | nil =>
      intro acc h
      refine ⟨h, fun q => ?_⟩
      have hfor : improvementsFor [] q = [] := rfl
      rw [List.foldl_nil, hfor]
      cases List.lookup q acc with
      | none => rfl
      | some d => simp [combineAcc]
  | cons o rest ih =>
      intro acc h
      have h' := nodup_keysOf_insertOpt (getPattern o) (getImprovement o) h
      obtain ⟨ihn, ihl⟩ := ih (insertOpt acc (getPattern o) (getImprovement o)) h'
      refine ⟨ihn, fun q => ?_⟩
      rw [List.foldl_cons, ihl q, lookup_insertOpt]
      by_cases hq : q = getPattern o
      · rw [if_pos hq, hq]
        have hfor : improvementsFor (o :: rest) (getPattern o)
            = getImprovement o :: improvementsFor rest (getPattern o) := by
          simp [improvementsFor, List.filter_cons]
        rw [hfor]
        cases hl : List.lookup (getPattern o) acc with
        | none => simp [combineAcc, add_comm]
        | some d =>
            simp only [combineAcc, List.length_cons, List.sum_cons, Option.some.injEq,
              PatternAcc.mk.injEq]
            refine ⟨by omega, by ring, by simp⟩
      · rw [if_neg hq]
        have hfor : improvementsFor (o :: rest) q = improvementsFor rest q := by
          have hb : (getPattern o == q) = false := beq_eq_false_iff_ne.2 (fun hh => hq hh.symm)
          simp [improvementsFor, List.filter_cons, hb]
        rw [hfor]



theorem accumPatterns_nodup (opts : List OptEntry) :
    (keysOf (accumPatterns opts)).Nodup :=
  (accum_foldl opts [] (by simp [keysOf])).1

theorem accumPatterns_lookup (opts : List OptEntry) (q : String) :
    List.lookup q (accumPatterns opts) = combineAcc none (improvementsFor opts q) :=
  (accum_foldl opts [] (by simp [keysOf])).2 q

theorem mem_iff_lookup :
    ∀ {acc : List (String × PatternAcc)}, (keysOf acc).Nodup →
      ∀ (q : String) (d : PatternAcc), ((q, d) ∈ acc ↔ List.lookup q acc = some d) := by
  intro acc
  induction acc with
  | nil => intro h q d; simp [List.lookup]
  | cons hd tl ih =>
      intro h q d
      obtain ⟨r, e⟩ := hd
      have hr : r ∉ keysOf tl := (List.nodup_cons.1 h).1
      have h2 : (keysOf tl).Nodup := (List.nodup_cons.1 h).2
      by_cases hq : q = r
      · subst hq
        simp only [List.mem_cons, List.lookup, beq_self_eq_true]
        constructor
        · rintro (heq | hmem)
          · have hde := congrArg Prod.snd heq
            simp only at hde
            rw [hde]
          · exact absurd (List.mem_map_of_mem Prod.fst hmem) hr
        · intro hsome
          left
          injection hsome with he
          rw [he]
      · have hb : (q == r) = false := beq_eq_false_iff_ne.2 hq
        simp only [List.mem_cons, List.lookup, hb]
        constructor
        · rintro (heq | hmem)
          · exact absurd (congrArg Prod.fst heq) hq
          · exact (ih h2 q d).1 hmem
        · intro hl
          exact Or.inr ((ih h2 q d).2 hl)

theorem keysOf_accum_foldl (opts : List OptEntry) :
    ∀ acc : List (String × PatternAcc),
      keysOf (opts.foldl (fun a o => insertOpt a (getPattern o) (getImprovement o)) acc)
        = opts.foldl
            (fun ks o => if getPattern o ∈ ks then ks else ks ++ [getPattern o])
            (keysOf acc) := by
  induction opts with
  | nil => intro acc; rfl
  | cons o rest ih =>
      intro acc
      rw [List.foldl_cons, List.foldl_cons, ih, keysOf_insertOpt]

theorem keysOf_accumPatterns (opts : List OptEntry) :
    keysOf (accumPatterns opts) = firstOccur (opts.map getPattern) := by
  rw [firstOccur, List.foldl_map]
  exact keysOf_accum_foldl opts []

theorem mem_insertByImpact {a s : PatternStat} {l : List PatternStat} :
    a ∈ insertByImpact s l ↔ a = s ∨ a ∈ l := by
  induction l with
  | nil => simp [insertByImpact]
  | cons t ts ih =>
      simp only [insertByImpact]
      split
      · simp [List.mem_cons]
      · simp only [List.mem_cons, ih]
        tauto

theorem pairwise_insertByImpact {s : PatternStat} {l : List PatternStat}
    (h : l.Pairwise (fun u v => v.total_impact ≤ u.total_impact)) :
    (insertByImpact s l).Pairwise (fun u v => v.total_impact ≤ u.total_impact) := by
  induction l with
  | nil => simp [insertByImpact]
  | cons t ts ih =>
      simp only [insertByImpact]
      split
      · rename_i hts
        refine List.Pairwise.cons ?_ h
        intro b hb
        rcases List.mem_cons.1 hb with rfl | hb
        · exact hts
        · exact le_trans  (List.rel_of_pairwise_cons h hb) hts
      · rename_i hts
        have hst : s.total_impact ≤ t.total_impact := le_of_not_le hts
        refine List.Pairwise.cons ?_ (ih (List.Pairwise.of_cons h))
        intro b hb
        rcases mem_insertByImpact.1 hb with rfl | hb
        · exact hst
        · exact List.rel_of_pairwise_cons h hb

theorem pairwise_sortByImpact (l : List PatternStat) :
    (sortByImpact l).Pairwise (fun u v => v.total_impact ≤ u.total_impact) := by
  induction l with
  | nil => simp [sortByImpact]
  | cons s rest ih => exact pairwise_insertByImpact ih

theorem filter_insertByImpact (s : PatternStat) (l : List PatternStat) (v : ℚ) :
    (insertByImpact s l).filter (fun t => decide (t.total_impact = v))
      = if s.total_impact = v
        then s :: l.filter (fun t => decide (t.total_impact = v))
        else l.filter (fun t => decide (t.total_impact = v)) := by
  induction l with
  | nil =>
      by_cases hv : s.total_impact = v <;> simp [insertByImpact, List.filter_cons, hv]
  | cons t ts ih =>
      simp only [insertByImpact]
      by_cases hts : t.total_impact ≤ s.total_impact
      · rw [if_pos hts]
        by_cases hv : s.total_impact = v <;> simp [List.filter_cons, hv]
      · rw [if_neg hts]
        have hst : s.total_impact < t.total_impact := lt_of_not_le hts
        by_cases hv : s.total_impact = v
        · rw [if_pos hv]
          have htv : ¬ (t.total_impact = v) := by
            rw [← hv]
            exact ne_of_gt hst
          simp [List.filter_cons, htv, ih, hv]
        · rw [if_neg hv]
          by_cases htv : t.total_impact = v <;> simp [List.filter_cons, htv, ih, hv]

theorem filter_sortByImpact (l : List PatternStat) (v : ℚ) :
    (sortByImpact l).filter (fun t => decide (t.total_impact = v))
      = l.filter (fun t => decide (t.total_impact = v)) := by
  induction l with
  | nil => rfl
  | cons s rest ih =>
      show (insertByImpact s (sortByImpact rest)).filter _ = _
      rw [filter_insertByImpact]
      by_cases hv : s.total_impact = v <;> simp [List.filter_cons, hv, ih]

theorem mem_sortByImpact {a : PatternStat} {l : List PatternStat} :
    a ∈ sortByImpact l ↔ a ∈ l := by
  induction l with
  | nil => simp [sortByImpact]
  | cons s rest ih =>
      show a ∈ insertByImpact s (sortByImpact rest) ↔ _
      rw [mem_insertByImpact, ih]
      simp [List.mem_cons, eq_comm]



theorem accum_count_pos {opts : List OptEntry} {p : String} {d : PatternAcc}
    (h : (p, d) ∈ accumPatterns opts) : 0 < d.count := by
  have hl := (mem_iff_lookup (accumPatterns_nodup opts) p d).1 h
  rw [accumPatterns_lookup] at hl
  cases hL : improvementsFor opts p with
  | nil => rw [hL] at hl; cases hl
  | cons x xs =>
      rw [hL] at hl
      simp only [combineAcc, Option.some.injEq] at hl
      rw [← hl]
      simp

theorem preStats_char {m : MetricsDict} {s : PatternStat} (h : s ∈ preStats m) :
    improvementsFor m.optimizations_applied s.pattern ≠ [] ∧
    s.count = (improvementsFor m.optimizations_applied s.pattern).length ∧
    s.avg_improvement = (improvementsFor m.optimizations_applied s.pattern).sum /
      ((improvementsFor m.optimizations_applied s.pattern).length : ℚ) ∧
    s.total_impact = (improvementsFor m.optimizations_applied s.pattern).sum ∧
    s.sq_std_improvement =
      (if 1 < (improvementsFor m.optimizations_applied s.pattern).length
       then popVariance (improvementsFor m.optimizations_applied s.pattern) else 0) := by
  simp only [preStats, List.mem_map, List.mem_filter] at h
  obtain ⟨⟨p, d⟩, ⟨hmem, hcount⟩, hs⟩ := h
  have hl : List.lookup p (accumPatterns m.optimizations_applied) = some d :=
    (mem_iff_lookup (accumPatterns_nodup _) p d).1 hmem
  rw [accumPatterns_lookup] at hl
  have hpat : s.pattern = p := by rw [← hs]; rfl
  rw [hpat]
  cases hL : improvementsFor m.optimizations_applied p with
  | nil => rw [hL] at hl; cases hl
  | cons x xs =>
      rw [hL] at hl
      simp only [combineAcc, Option.some.injEq] at hl
      rw [← hs, ← hl]
      simp [mkStat]

/-! ## Claims -/

/-- C1: for every `OptimizationState` input (any `iteration` and any
`total_improvement`, however large), `calculate_roi` returns an
`efficiency_score` that never exceeds 100; in particular, with
`iteration = 1` and `total_improvement = 1000` the `efficiency_score`
equals 100, not 20000. -/
theorem C1_efficiency_score_le_100 :
    (∀ (state : StateDict) (metrics : MetricsDict),
        (calculate_roi state metrics).efficiency_score ≤ 100) ∧
    (calculate_roi ⟨some 1, some 1000, none, none⟩ ⟨[], []⟩).efficiency_score = 100 := by
  constructor
  · intro state metrics
    simp only [calculate_roi]
    exact min_le_left _ _
  · norm_num [calculate_roi]

/-- C2: `identify_patterns` groups `optimizations_applied` entries by
pattern name (one group per distinct defaulted pattern name, in
first-encounter order before sorting), computes per group the count, mean,
population standard deviation (0 when count ≤ 1, recovered here as
`Real.sqrt` of the stored square), total impact (the sum of the group's
improvements) and reliability `1 - std / max(mean, 0.001)`, and returns the
groups sorted descending by total impact with ties broken by original group
encounter order (the filter conjunct states stability: for each total
impact the output preserves the pre-sort sequence); on the worked example
it yields A with count 2, avg 15, total_impact 30 and B with count 1,
avg 5, total_impact 5, ordered [A, B]. -/
theorem C2_identify_patterns :
    (identify_patterns exampleMetrics =
      [⟨("A"), 2, 15, 25, 30⟩, ⟨("B"), 1, 5, 0, 5⟩]) ∧
    (∀ s ∈ identify_patterns exampleMetrics,
       (s.pattern = ("A") → stdR s = 5 ∧ reliabilityR s = 2 / 3) ∧
       (s.pattern = ("B") → stdR s = 0 ∧ reliabilityR s = 1)) ∧
    (∀ m : MetricsDict,
       (identify_patterns m).Pairwise (fun u v => v.total_impact ≤ u.total_impact)) ∧
    (∀ (m : MetricsDict) (v : ℚ),
       (identify_patterns m).filter (fun t => decide (t.total_impact = v))
         = (preStats m).filter (fun t => decide (t.total_impact = v))) ∧
    (∀ m : MetricsDict,
       (preStats m).map (fun t => t.pattern)
         = firstOccur (m.optimizations_applied.map getPattern)) ∧
    (∀ (m : MetricsDict), ∀ s ∈ identify_patterns m,
       improvementsFor m.optimizations_applied s.pattern ≠ [] ∧
       s.count = (improvementsFor m.optimizations_applied s.pattern).length ∧
       s.avg_improvement = (improvementsFor m.optimizations_applied s.pattern).sum /
         ((improvementsFor m.optimizations_applied s.pattern).length : ℚ) ∧
       s.total_impact = (improvementsFor m.optimizations_applied s.pattern).sum ∧
       s.sq_std_improvement =
         (if 1 < (improvementsFor m.optimizations_applied s.pattern).length
          then popVariance (improvementsFor m.optimizations_applied s.pattern) else 0) ∧
       stdR s = Real.sqrt s.sq_std_improvement ∧
       reliabilityR s = 1 - stdR s / max (s.avg_improvement : ℝ) (1 / 1000)) := by
  have h1 : identify_patterns exampleMetrics =
      [⟨("A"), 2, 15, 25, 30⟩, ⟨("B"), 1, 5, 0, 5⟩] := by
    norm_num [identify_patterns, preStats, accumPatterns, insertOpt, mkStat, popVariance,
      sortByImpact, insertByImpact, getPattern, getImprovement, exampleMetrics,
      List.foldl, List.filter, List.map]
  refine ⟨h1, ?_, ?_, ?_, ?_, ?_⟩
  · intro s hs
    rw [h1] at hs
    have hsqrt25 : Real.sqrt ((25 : ℚ) : ℝ) = 5 := by
      rw [show ((25 : ℚ) : ℝ) = (5 : ℝ) ^ 2 by norm_num]
      exact Real.sqrt_sq (by norm_num)
    rcases List.mem_cons.1 hs with rfl | hs
    · refine ⟨fun _ => ?_, fun hB => absurd hB (by decide)⟩
      have hstd : stdR (⟨("A"), 2, 15, 25, 30⟩ : PatternStat) = 5 := hsqrt25
      refine ⟨hstd, ?_⟩
      rw [reliabilityR, hstd]
      rw [show max (((15 : ℚ) : ℝ)) (1 / 1000) = 15 by
        rw [max_eq_left] <;> norm_num]
      norm_num
    · rcases List.mem_cons.1 hs with rfl | hs
      · refine ⟨fun hA => absurd hA (by decide), fun _ => ?_⟩
        have hstd : stdR (⟨("B"), 1, 5, 0, 5⟩ : PatternStat) = 0 := by
          rw [stdR]
          norm_num
        refine ⟨hstd, ?_⟩
        rw [reliabilityR, hstd]
        rw [show max (((5 : ℚ) : ℝ)) (1 / 1000) = 5 by
          rw [max_eq_left] <;> norm_num]
        norm_num
      · cases hs
  · intro m
    exact pairwise_sortByImpact (preStats m)
  · intro m v
    exact filter_sortByImpact (preStats m) v
  · intro m
    have hfil : (accumPatterns m.optimizations_applied).filter
        (fun pd => 0 < pd.2.count) = accumPatterns m.optimizations_applied := by
      rw [List.filter_eq_self]
      intro pd hmem
      obtain ⟨p, d⟩ := pd
      exact decide_eq_true (accum_count_pos hmem)
    rw [preStats, hfil, List.map_map]
    exact keysOf_accumPatterns m.optimizations_applied
  · intro m s hs
    obtain ⟨ha, hb, hc, hd, he⟩ := preStats_char (mem_sortByImpact.1 hs)
    exact ⟨ha, hb, hc, hd, he, rfl, rfl⟩



theorem C2_witness :
    (⟨("A"), 2, 15, 25, 30⟩ : PatternStat) ∈ identify_patterns exampleMetrics ∧
    (improvementsFor exampleMetrics.optimizations_applied (⟨("A"), 2, 15, 25, 30⟩ : PatternStat).pattern ≠ [] ∧
     (⟨("A"), 2, 15, 25, 30⟩ : PatternStat).count = (improvementsFor exampleMetrics.optimizations_applied (⟨("A"), 2, 15, 25, 30⟩ : PatternStat).pattern).length ∧
     (⟨("A"), 2, 15, 25, 30⟩ : PatternStat).avg_improvement = (improvementsFor exampleMetrics.optimizations_applied (⟨("A"), 2, 15, 25, 30⟩ : PatternStat).pattern).sum / (((improvementsFor exampleMetrics.optimizations_applied (⟨("A"), 2, 15, 25, 30⟩ : PatternStat).pattern).length : ℚ)) ∧
     (⟨("A"), 2, 15, 25, 30⟩ : PatternStat).total_impact = (improvementsFor exampleMetrics.optimizations_applied (⟨("A"), 2, 15, 25, 30⟩ : PatternStat).pattern).sum ∧
     (⟨("A"), 2, 15, 25, 30⟩ : PatternStat).sq_std_improvement =
       (if 1 < (improvementsFor exampleMetrics.optimizations_applied (⟨("A"), 2, 15, 25, 30⟩ : PatternStat).pattern).length then popVariance (improvementsFor exampleMetrics.optimizations_applied (⟨("A"), 2, 15, 25, 30⟩ : PatternStat).pattern) else 0) ∧
     stdR (⟨("A"), 2, 15, 25, 30⟩ : PatternStat) = Real.sqrt (⟨("A"), 2, 15, 25, 30⟩ : PatternStat).sq_std_improvement ∧
     reliabilityR (⟨("A"), 2, 15, 25, 30⟩ : PatternStat) = 1 - stdR (⟨("A"), 2, 15, 25, 30⟩ : PatternStat) / max (((⟨("A"), 2, 15, 25, 30⟩ : PatternStat).avg_improvement : ℝ)) (1 / 1000)) := by
  have hmem : (⟨("A"), 2, 15, 25, 30⟩ : PatternStat) ∈ identify_patterns exampleMetrics := by
    rw [C2_identify_patterns.1]
    exact List.mem_cons_self _ _
  exact ⟨hmem, C2_identify_patterns.2.2.2.2.2 exampleMetrics _ hmem⟩

/-- C3: for every improvement sequence of length at least 2,
`analyze_trend` returns the first-degree least-squares slope fitted against
index positions `0..n-1` (witnessed by `sse`-minimality over all lines),
and `r_squared = 1 - ss_res / ss_tot`, defined as 0 when the total sum of
squares is 0, classifying the trend as `"improving"` when `slope > 0.1`,
`"degrading"` when `slope < -0.1` and `"stable"` otherwise; in particular
`[1,2,3,4,5]` gives slope 1, r² 1, trend `"improving"`, and `[3,3,3,3]`
gives slope 0, r² 0, trend `"stable"`. -/
theorem C3_trend_least_squares :
    analyze_trend [1, 2, 3, 4, 5] = ⟨some 1, some 1, ("improving")⟩ ∧
    analyze_trend [3, 3, 3, 3] = ⟨some 0, some 0, ("stable")⟩ ∧
    ∀ values : List ℚ, 2 ≤ values.length →
      (analyze_trend values =
        ⟨some (slopeOf values),
         some (if 0 < ssTot values then
                 1 - sse values (slopeOf values) (interceptOf values) / ssTot values
               else 0),
         if 1 / 10 < slopeOf values then ("improving")
         else if slopeOf values < -(1 / 10) then ("degrading") else ("stable")⟩) ∧
      (∀ a b : ℚ, sse values (slopeOf values) (interceptOf values) ≤ sse values a b) ∧
      (ssTot values = 0 → (analyze_trend values).r_squared = some 0) := by
  refine ⟨?_, ?_, ?_⟩
  · norm_num [analyze_trend, slopeOf, interceptOf, sse, ssTot, yOf, fitSlope, fitIntercept,
      Sx, Sxx, Sy, Sxy, Finset.sum_range_succ, classify]
  · norm_num [analyze_trend, slopeOf, interceptOf, sse, ssTot, yOf, fitSlope, fitIntercept,
      Sx, Sxx, Sy, Sxy, Finset.sum_range_succ, classify]
  · intro values hlen
    have hnot : ¬ values.length < 2 := by omega
    refine ⟨?_, sse_optimal values hlen, ?_⟩
    · simp [analyze_trend, hnot, classify]
    · intro h0
      simp [analyze_trend, hnot, h0]

theorem C3_witness :
    2 ≤ ([1, 2, 3, 4, 5] : List ℚ).length ∧
    ((analyze_trend [1, 2, 3, 4, 5] =
        ⟨some (slopeOf [1, 2, 3, 4, 5]),
         some (if 0 < ssTot [1, 2, 3, 4, 5] then
                 1 - sse [1, 2, 3, 4, 5] (slopeOf [1, 2, 3, 4, 5])
                       (interceptOf [1, 2, 3, 4, 5]) / ssTot [1, 2, 3, 4, 5]
               else 0),
         if 1 / 10 < slopeOf [1, 2, 3, 4, 5] then ("improving")
         else if slopeOf [1, 2, 3, 4, 5] < -(1 / 10) then ("degrading")
         else ("stable")⟩) ∧
     (∀ a b : ℚ, sse [1, 2, 3, 4, 5] (slopeOf [1, 2, 3, 4, 5])
        (interceptOf [1, 2, 3, 4, 5]) ≤ sse [1, 2, 3, 4, 5] a b) ∧
     (ssTot [1, 2, 3, 4, 5] = 0 →
        (analyze_trend [1, 2, 3, 4, 5]).r_squared = some 0)) :=
  ⟨by norm_num, C3_trend_least_squares.2.2 [1, 2, 3, 4, 5] (by norm_num)⟩

/-- C4: for every improvement sequence of length less than 2 (empty or a
single point), `analyze_trend` returns slope 0, `r_squared` 0, and trend
`"insufficient_data"`. -/
theorem C4_insufficient_data (values : List ℚ) (h : values.length < 2) :
    analyze_trend values = ⟨some 0, some 0, ("insufficient_data")⟩ := by
  simp [analyze_trend, h]

theorem C4_witness :
    ([] : List ℚ).length < 2 ∧
    analyze_trend [] = ⟨some 0, some 0, ("insufficient_data")⟩ :=
  ⟨by norm_num, C4_insufficient_data [] (by norm_num)⟩

/-- C5: `predict_convergence` returns no prediction (`none`) whenever the
input has fewer than 3 points or the fitted decay rate is not negative; and
the log transform cannot fail, because its argument
`value - min(values) + 0.001` is strictly positive at every point of the
input (the function is total, so it never raises to its caller). -/
theorem C5_no_prediction (improvements : List ℚ) (threshold : ℚ)
    (h : improvements.length < 3 ∨
         0 ≤ fitSlope ℝ improvements.length (logVals improvements)) :
    predict_convergence improvements threshold = none ∧
    ∀ v ∈ improvements, (0 : ℝ) < (v : ℝ) - (minVal improvements : ℝ) + 1 / 1000 := by
  constructor
  · by_cases hlen : improvements.length < 3
    · simp [predict_convergence, hlen]
    · rcases h with h | h
      · exact absurd h hlen
      · simp only [predict_convergence, if_neg hlen]
        rw [if_neg (not_lt.2 h)]
  · intro v hv
    have h1 : minVal improvements ≤ v := minVal_le hv
    have h2 : ((minVal improvements : ℚ) : ℝ) ≤ (v : ℝ) := by exact_mod_cast h1
    linarith

theorem C5_witness :
    (([1, 2] : List ℚ).length < 3 ∨
      0 ≤ fitSlope ℝ ([1, 2] : List ℚ).length (logVals [1, 2])) ∧
    (predict_convergence [1, 2] 1 = none ∧
     ∀ v ∈ ([1, 2] : List ℚ), (0 : ℝ) < (v : ℝ) - (minVal [1, 2] : ℝ) + 1 / 1000) :=
  ⟨Or.inl (by norm_num), C5_no_prediction [1, 2] 1 (Or.inl (by norm_num))⟩

/-- C8: when `optimization_state.json` is missing, `load_state` returns the
all-zero default state without reporting an error (the stored keys are
`iteration = 0` and `total_improvement = 0`, and the two counter keys read
as 0 through every `dict.get(-, 0)` in the program); when
`kaizen_metrics.json` is missing, `load_metrics` returns the empty-sequence
defaults without reporting an error. -/
theorem C8_missing_file_defaults :
    load_state none = defaultState ∧
    defaultState.iteration = some 0 ∧
    defaultState.total_improvement = some 0 ∧
    defaultState.successful_optimizations.getD 0 = 0 ∧
    defaultState.failed_attempts.getD 0 = 0 ∧
    load_metrics none = ⟨[], []⟩ :=
  ⟨rfl, rfl, rfl, rfl, rfl, rfl⟩

/-- C6: when `predict_convergence` is given at least 3 points and the
linear fit on the log-transformed values (`value - min(values) + 0.001`)
has a negative decay rate, it returns
`max(0, predicted_index - current_length)`, where `predicted_index` is the
(truncated) index at which the fitted model `exp(a*x + b)` crosses the
threshold - the second conjunct checks that the solved index is exactly the
model's crossing point of the threshold. -/
theorem C6_convergence_prediction (improvements : List ℚ) (threshold : ℚ)
    (h3 : 3 ≤ improvements.length)
    (hneg : fitSlope ℝ improvements.length (logVals improvements) < 0) :
    predict_convergence improvements threshold =
      some (max 0 (truncR ((Real.log (threshold : ℝ) -
          fitIntercept ℝ improvements.length (logVals improvements)) /
          fitSlope ℝ improvements.length (logVals improvements)) -
        improvements.length)) ∧
    (0 < threshold →
      Real.exp (fitSlope ℝ improvements.length (logVals improvements) *
          ((Real.log (threshold : ℝ) -
            fitIntercept ℝ improvements.length (logVals improvements)) /
            fitSlope ℝ improvements.length (logVals improvements)) +
        fitIntercept ℝ improvements.length (logVals improvements)) = (threshold : ℝ)) := by
  constructor
  · have hn : ¬ improvements.length < 3 := by omega
    simp only [predict_convergence, if_neg hn]
    rw [if_pos hneg]
  · intro hθ
    have ha : fitSlope ℝ improvements.length (logVals improvements) ≠ 0 := ne_of_lt hneg
    have harg : fitSlope ℝ improvements.length (logVals improvements) *
        ((Real.log (threshold : ℝ) -
          fitIntercept ℝ improvements.length (logVals improvements)) /
          fitSlope ℝ improvements.length (logVals improvements)) +
        fitIntercept ℝ improvements.length (logVals improvements) =
        Real.log (threshold : ℝ) := by
      field_simp
    rw [harg]
    have hθr : (0 : ℝ) < (threshold : ℝ) := by exact_mod_cast hθ
    exact Real.exp_log hθr

theorem C6_witness :
    3 ≤ ([3, 2, 1] : List ℚ).length ∧
    fitSlope ℝ ([3, 2, 1] : List ℚ).length (logVals [3, 2, 1]) < 0 ∧
    (predict_convergence [3, 2, 1] (1 / 20) =
      some (max 0 (truncR ((Real.log ((1 / 20 : ℚ) : ℝ) -
          fitIntercept ℝ ([3, 2, 1] : List ℚ).length (logVals [3, 2, 1])) /
          fitSlope ℝ ([3, 2, 1] : List ℚ).length (logVals [3, 2, 1])) -
        ([3, 2, 1] : List ℚ).length)) ∧
     (0 < (1 / 20 : ℚ) →
       Real.exp (fitSlope ℝ ([3, 2, 1] : List ℚ).length (logVals [3, 2, 1]) *
           ((Real.log ((1 / 20 : ℚ) : ℝ) -
             fitIntercept ℝ ([3, 2, 1] : List ℚ).length (logVals [3, 2, 1])) /
             fitSlope ℝ ([3, 2, 1] : List ℚ).length (logVals [3, 2, 1])) +
         fitIntercept ℝ ([3, 2, 1] : List ℚ).length (logVals [3, 2, 1])) =
         ((1 / 20 : ℚ) : ℝ))) := by
  have hneg : fitSlope ℝ ([3, 2, 1] : List ℚ).length (logVals [3, 2, 1]) < 0 := by
    have hmin : minVal [3, 2, 1] = 1 := by norm_num [minVal, List.foldl]
    simp only [fitSlope, Sxy, Sx, Sy, Sxx, logVals, yOf, hmin, List.length_cons,
      List.length_nil, Finset.sum_range_succ, Finset.sum_range_zero]
    push_cast
    norm_num
    have hlog : Real.log (1 / 1000) < Real.log (2001 / 1000) :=
      Real.log_lt_log (by norm_num) (by norm_num)
    apply div_neg_of_neg_of_pos
    · linarith
    · norm_num
  exact ⟨by norm_num, hneg,
    C6_convergence_prediction [3, 2, 1] (1 / 20) (by norm_num) hneg⟩

/-- C7: for every state, metrics, and trend input with trend equal to
`"degrading"`, `generate_recommendations`' output contains exactly one
stop-suggestion line (the "Consider stopping" recommendation), regardless
of the other inputs (including the wall-clock hour). -/
theorem C7_degrading_one_stop_line (state : StateDict) (metrics : MetricsDict)
    (trend : TrendResult) (hour : ℕ) (h : trend.trend = ("degrading")) :
    (generate_recommendations state metrics trend hour).count stopLine = 1 := by
  have hmatch : stopLine ∉ (match identify_patterns metrics with
      | [] => ([] : List String) | best :: _ => [patternLine best]) := by
    cases identify_patterns metrics with
    | nil => intro hm; cases hm
    | cons best rest =>
        intro hm
        rw [List.mem_singleton] at hm
        exact patternLine_ne_stopLine best hm.symm
  simp only [generate_recommendations, h, reduceIte, List.singleton_append]
  simp only [List.count_append]
  rw [List.count_cons_self]
  have hA : List.count stopLine
      (if (calculate_roi state metrics).efficiency_score < 50 then [lowEfficiencyLine]
       else []) = 0 :=
    List.count_eq_zero.2 (notmem_stop_ite (by decide))
  have hB : List.count stopLine (match identify_patterns metrics with
      | [] => ([] : List String) | best :: _ => [patternLine best]) = 0 :=
    List.count_eq_zero.2 hmatch
  have hC : List.count stopLine
      (if successRate state < 1 / 2 then [successRateLine] else []) = 0 :=
    List.count_eq_zero.2 (notmem_stop_ite (by decide))
  have hD : List.count stopLine
      (if 6 ≤ hour ∧ hour ≤ 8 then [morningLine] else []) = 0 :=
    List.count_eq_zero.2 (notmem_stop_ite (by decide))
  rw [hA, hB, hC, hD]

theorem C7_witness :
    (⟨some (-1), some 0, ("degrading")⟩ : TrendResult).trend = ("degrading") ∧
    (generate_recommendations defaultState ⟨[], []⟩
        ⟨some (-1), some 0, ("degrading")⟩ 12).count stopLine = 1 :=
  ⟨rfl, C7_degrading_one_stop_line defaultState ⟨[], []⟩
      ⟨some (-1), some 0, ("degrading")⟩ 12 rfl⟩

/-- C9: when the improvement history is empty, `generate_report` produces a
report whose trend is `"no_data"` (the bare dict, with no slope or
r_squared keys) and whose recent-improvements section renders zero entries,
and - being a total function together with `render_report` - it does not
raise an error. -/
theorem C9_empty_history_report (stateFile : Option StateDict)
    (metricsFile : Option MetricsDict) (hour : ℕ) (now : String)
    (h : (load_metrics metricsFile).improvement_history = []) :
    (collect_report stateFile metricsFile hour).trend = ⟨none, none, ("no_data")⟩ ∧
    (collect_report stateFile metricsFile hour).recent = [] ∧
    renderRecent (collect_report stateFile metricsFile hour).improvements.length
      (collect_report stateFile metricsFile hour).recent = "" ∧
    generate_report stateFile metricsFile hour now =
      render_report now (collect_report stateFile metricsFile hour) := by
  refine ⟨?_, ?_, ?_, rfl⟩
  · simp [collect_report, h]
  · simp [collect_report, h]
  · simp only [collect_report, h, renderRecent, reduceIte]
    rfl

theorem C9_witness :
    (load_metrics none).improvement_history = [] ∧
    ((collect_report none none 0 ).trend = ⟨none, none, ("no_data")⟩ ∧
     (collect_report none none 0).recent = [] ∧
     renderRecent (collect_report none none 0).improvements.length
       (collect_report none none 0).recent = "" ∧
     generate_report none none 0 "" = render_report "" (collect_report none none 0)) :=
  ⟨rfl, C9_empty_history_report none none 0 "" rfl⟩

/-- C10: for every state dict in which the key `"iteration"` is absent,
`calculate_roi` treats the iteration as 1, not 0: it returns
`time_invested_hours = 5/60` and
`improvement_per_iteration = total_improvement / 1`; this differs from the
missing-file default state, where `iteration` is stored as 0 and
`time_invested_hours` is 0. -/
theorem C10_missing_iteration_key (state : StateDict) (metrics : MetricsDict)
    (h : state.iteration = none) :
    (calculate_roi state metrics).time_invested_hours = 5 / 60 ∧
    (calculate_roi state metrics).improvement_per_iteration =
      state.total_improvement.getD 0 / 1 ∧
    (calculate_roi defaultState metrics).time_invested_hours = 0 := by
  refine ⟨?_, ?_, ?_⟩ <;> norm_num [calculate_roi, h, defaultState]

theorem C10_witness :
    (⟨none, some 7, none, none⟩ : StateDict).iteration = none ∧
    ((calculate_roi ⟨none, some 7, none, none⟩ ⟨[], []⟩).time_invested_hours = 5 / 60 ∧
     (calculate_roi ⟨none, some 7, none, none⟩ ⟨[], []⟩).improvement_per_iteration =
       (⟨none, some 7, none, none⟩ : StateDict).total_improvement.getD 0 / 1 ∧
     (calculate_roi defaultState ⟨[], []⟩).time_invested_hours = 0) :=
  ⟨rfl, C10_missing_iteration_key ⟨none, some 7, none, none⟩ ⟨[], []⟩ rfl⟩

end Kaizen
